import Mathlib

/-!
Shallow embedding of `psqlextra/management/commands/pgpartition.py`
(django-postgres-extra's `pgpartition` management command).

The command creates new partitions and deletes old ones according to the
configured partitioning manager.  Its observable behaviour is modelled as a
pure function from an environment (the Django setting, the `import_string`
resolver, the partitioning manager's `apply` results, and the line waiting on
stdin) and the parsed command-line arguments, to an `Except` outcome paired
with the ordered trace of observable events (calls to the manager's `apply`,
printed output, reads from stdin).
-/

namespace PgPartition

/-- A Python value that the `PSQLEXTRA_PARTITIONING_MANAGER` setting may hold:
`None`, a string, or some other object.  Arbitrary objects carry an opaque
identifier and their Python truthiness (objects may override `__bool__`). -/
inductive PyVal where
  | none : PyVal
  | str : String → PyVal
  | obj : Nat → Bool → PyVal
  deriving DecidableEq, Repr

/-- Python truthiness of a `PyVal`: `None` is falsy, a string is truthy iff
non-empty, an object reports its own truthiness. -/
def PyVal.truthy : PyVal → Bool
  | .none => false
  | .str s => !s.isEmpty
  | .obj _ t => t

/-- Exceptions that can escape the command. -/
inductive Err where
  | attributeError : Err
  | postgresPartitioningError : String → Err
  deriving DecidableEq, Repr

/-- The message of the `PostgresPartitioningError` raised by
`Command._partitioning_manager`. -/
def managerNotConfiguredMsg : String :=
  "You must configure the PSQLEXTRA_PARTITIONING_MANAGER setting " ++
  "for automatic partitioning to work."

/-- A partition plan as consumed by the command: the partitions that would be
created and the partitions that would be deleted (identified by key). -/
structure PartitionPlan where
  created_partitions : List String
  deleted_partitions : List String
  deriving DecidableEq, Repr

/-- Observable events emitted by `Command.handle`, in order.  Each constructor
corresponds to one side effect in the source: a call to the partitioning
manager's `apply` (with its keyword arguments), `plan.print()`, the blank
line after each plan, each `ansiprint` message, the confirmation prompt
written to stdout, and the `input()` read. -/
inductive Event where
  | coloramaInitStrip : Event
  | applyCall (dry_run : Bool) (no_create : Bool) (no_delete : Bool)
      (usingConn : Option String) : Event
  | printPlan (plan : PartitionPlan) : Event
  | blankLine : Event
  | nothingToBeDone : Event
  | reportDeleteCount (n : Nat) : Event
  | reportCreateCount (n : Nat) : Event
  | confirmationPrompt : Event
  | readInput (answer : String) : Event
  | operationAborted : Event
  | operationsApplied : Event
  deriving DecidableEq, Repr

/-- The environment the command runs in: whether the Django settings object
has the `PSQLEXTRA_PARTITIONING_MANAGER` attribute (and its value), Django's
`import_string` resolver, the plans the partitioning manager's `apply`
returns for given keyword arguments, whether stdout is a terminal, and the
line `input()` would read from stdin. -/
structure Env where
  setting : Option PyVal
  importString : String → PyVal
  applyPlans : Bool → Bool → Bool → Option String → List PartitionPlan
  stdoutIsatty : Bool
  stdinLine : String

/-- The parsed command-line arguments of the `pgpartition` command.  The
source's `using` argument is called `usingConn` here because `using` is a
Lean keyword. -/
structure HandleArgs where
  dry : Bool
  yes : Bool
  usingConn : Option String
  no_create : Bool
  no_delete : Bool
  deriving DecidableEq, Repr

/-- Embedding of `Command._partitioning_manager`: reads the
`PSQLEXTRA_PARTITIONING_MANAGER` setting with a two-argument `getattr`
(raising `AttributeError` when the attribute is absent), raises
`PostgresPartitioningError` when the value is falsy, resolves strings through
`import_string`, and returns anything else unchanged. -/
def _partitioning_manager (setting : Option PyVal)
    (importString : String → PyVal) : Except Err PyVal :=
  match setting with
  | Option.none => .error .attributeError
  | Option.some pm =>
    if !pm.truthy then
      .error (.postgresPartitioningError managerNotConfiguredMsg)
    else
      match pm with
      | .str s => .ok (importString s)
      | v => .ok v

/-- Embedding of `Command._ask_for_confirmation`: lowercases the answer read from stdin,
returns `false` on an empty answer, `true` when the first character is `y`
or the whole answer is `yes`, and `false` otherwise. -/
def _ask_for_confirmation (answer : String) : Bool :=
  let a := answer.toLower
  if a.isEmpty then false
  else if a.front = 'y' ∨ a = "yes" then true
  else false

/-- The events of the `for plan in plans: plan.print(); print("")` loop. -/
def printPlansEvents : List PartitionPlan → List Event
  | [] => []
  | p :: ps => Event.printPlan p :: Event.blankLine :: printPlansEvents ps

/-- The source's `sum([len(plan.created_partitions) for plan in plans])`. -/
def createCount (plans : List PartitionPlan) : Nat :=
  (plans.map fun plan => plan.created_partitions.length).sum

/-- The source's `sum([len(plan.deleted_partitions) for plan in plans])`. -/
def deleteCount (plans : List PartitionPlan) : Nat :=
  (plans.map fun plan => plan.deleted_partitions.length).sum

/-- The `colorama.init(strip=True)` call performed when stdout is not a
terminal; it is the only effect before `_partitioning_manager` runs. -/
def initEvents (env : Env) : List Event :=
  if env.stdoutIsatty then [] else [Event.coloramaInitStrip]

/-- Embedding of `Command.handle`: the body of the command.  Returns the outcome (normal
return or escaped exception) together with the ordered trace of observable
events.  Mirrors the source line by line: colorama init, manager resolution,
the plan-computing `apply(dry_run=True, ...)`, printing every plan, the
counts, the early return when nothing is to be done, the count report, the
`--dry` early return, the interactive confirmation unless `--yes`, and the
executing `apply(dry_run=False, ...)`. -/
def handle (env : Env) (args : HandleArgs) : Except Err Unit × List Event :=
  let ev0 := initEvents env
  match _partitioning_manager env.setting env.importString with
  | .error e => (.error e, ev0)
  | .ok _pm =>
    let plans := env.applyPlans true args.no_create args.no_delete args.usingConn
    let ev1 := ev0 ++
      [Event.applyCall true args.no_create args.no_delete args.usingConn] ++
      printPlansEvents plans
    let create_count := createCount plans
    let delete_count := deleteCount plans
    if create_count = 0 ∧ delete_count = 0 then
      (.ok (), ev1 ++ [Event.nothingToBeDone])
    else
      let ev2 := ev1 ++
        [Event.reportDeleteCount delete_count,
         Event.reportCreateCount create_count]
      if args.dry then
        (.ok (), ev2)
      else if !args.yes then
        let ev3 := ev2 ++
          [Event.confirmationPrompt, Event.readInput env.stdinLine]
        if !_ask_for_confirmation env.stdinLine then
          (.ok (), ev3 ++ [Event.operationAborted])
        else
          (.ok (), ev3 ++
            [Event.applyCall false args.no_create args.no_delete args.usingConn,
             Event.operationsApplied])
      else
        (.ok (), ev2 ++
          [Event.applyCall false args.no_create args.no_delete args.usingConn,
           Event.operationsApplied])

/-- The plans computed by the plan-computing `apply(dry_run=True, ...)` call
(the local variable `plans` in `Command.handle`). -/
def plansOf (env : Env) (args : HandleArgs) : List PartitionPlan :=
  env.applyPlans true args.no_create args.no_delete args.usingConn

/-- The trace prefix common to every non-error run of `handle`: colorama
init, the dry-run `apply` call, and the printing of every plan. -/
def baseTrace (env : Env) (args : HandleArgs) : List Event :=
  initEvents env ++
  [Event.applyCall true args.no_create args.no_delete args.usingConn] ++
  printPlansEvents (plansOf env args)

/-- Trace `baseTrace` followed by the delete-count and create-count report. -/
def reportTrace (env : Env) (args : HandleArgs) : List Event :=
  baseTrace env args ++
  [Event.reportDeleteCount (deleteCount (plansOf env args)),
   Event.reportCreateCount (createCount (plansOf env args))]

lemma mem_initEvents {e : Event} {env : Env} (h : e ∈ initEvents env) :
    e = Event.coloramaInitStrip := by
  unfold initEvents at h
  split at h <;> simp_all

lemma mem_printPlansEvents {e : Event} {plans : List PartitionPlan}
    (h : e ∈ printPlansEvents plans) :
    (∃ p ∈ plans, e = Event.printPlan p) ∨ e = Event.blankLine := by
  induction plans with
  | nil => simp [printPlansEvents] at h
  | cons p ps ih =>
    simp only [printPlansEvents, List.mem_cons] at h
    rcases h with h | h | h
    · exact Or.inl ⟨p, by simp, h⟩
    · exact Or.inr h
    · rcases ih h with ⟨q, hq, he⟩ | he
      · exact Or.inl ⟨q, by simp [hq], he⟩
      · exact Or.inr he

lemma applyCall_not_mem_printPlansEvents (dr nc nd : Bool) (u : Option String)
    (plans : List PartitionPlan) :
    Event.applyCall dr nc nd u ∉ printPlansEvents plans := by
  intro h
  rcases mem_printPlansEvents h with ⟨p, _, he⟩ | he <;> simp_all

lemma applyCall_not_mem_initEvents (dr nc nd : Bool) (u : Option String)
    (env : Env) : Event.applyCall dr nc nd u ∉ initEvents env := by
  intro h
  exact absurd (mem_initEvents h) (by simp)

lemma readInput_not_mem_printPlansEvents (s : String)
    (plans : List PartitionPlan) :
    Event.readInput s ∉ printPlansEvents plans := by
  intro h
  rcases mem_printPlansEvents h with ⟨p, _, he⟩ | he <;> simp_all

lemma readInput_not_mem_initEvents (s : String) (env : Env) :
    Event.readInput s ∉ initEvents env := by
  intro h
  exact absurd (mem_initEvents h) (by simp)

lemma handle_eq_error (env : Env) (args : HandleArgs) (e : Err)
    (hpm : _partitioning_manager env.setting env.importString = .error e) :
    handle env args = (.error e, initEvents env) := by
  simp [handle, hpm]

lemma handle_eq_nothing (env : Env) (args : HandleArgs) (pm : PyVal)
    (hpm : _partitioning_manager env.setting env.importString = .ok pm)
    (h0 : createCount (plansOf env args) = 0)
    (h0d : deleteCount (plansOf env args) = 0) :
    handle env args = (.ok (), baseTrace env args ++ [Event.nothingToBeDone]) := by
  simp only [handle, hpm, plansOf, baseTrace] at *
  rw [if_pos ⟨h0, h0d⟩]

lemma handle_eq_dry (env : Env) (args : HandleArgs) (pm : PyVal)
    (hpm : _partitioning_manager env.setting env.importString = .ok pm)
    (hne : ¬(createCount (plansOf env args) = 0 ∧
             deleteCount (plansOf env args) = 0))
    (hdry : args.dry = true) :
    handle env args = (.ok (), reportTrace env args) := by
  simp only [handle, hpm, plansOf, reportTrace, baseTrace] at *
  rw [if_neg hne]
  simp [hdry]

lemma handle_eq_yes (env : Env) (args : HandleArgs) (pm : PyVal)
    (hpm : _partitioning_manager env.setting env.importString = .ok pm)
    (hne : ¬(createCount (plansOf env args) = 0 ∧
             deleteCount (plansOf env args) = 0))
    (hdry : args.dry = false) (hyes : args.yes = true) :
    handle env args = (.ok (), reportTrace env args ++
      [Event.applyCall false args.no_create args.no_delete args.usingConn,
       Event.operationsApplied]) := by
  simp only [handle, hpm, plansOf, reportTrace, baseTrace] at *
  rw [if_neg hne]
  simp [hdry, hyes]

lemma handle_eq_confirmed (env : Env) (args : HandleArgs) (pm : PyVal)
    (hpm : _partitioning_manager env.setting env.importString = .ok pm)
    (hne : ¬(createCount (plansOf env args) = 0 ∧
             deleteCount (plansOf env args) = 0))
    (hdry : args.dry = false) (hyes : args.yes = false)
    (hconf : _ask_for_confirmation env.stdinLine = true) :
    handle env args = (.ok (), reportTrace env args ++
      [Event.confirmationPrompt, Event.readInput env.stdinLine] ++
      [Event.applyCall false args.no_create args.no_delete args.usingConn,
       Event.operationsApplied]) := by
  simp only [handle, hpm, plansOf, reportTrace, baseTrace] at *
  rw [if_neg hne]
  simp [hdry, hyes, hconf]

lemma handle_eq_aborted (env : Env) (args : HandleArgs) (pm : PyVal)
    (hpm : _partitioning_manager env.setting env.importString = .ok pm)
    (hne : ¬(createCount (plansOf env args) = 0 ∧
             deleteCount (plansOf env args) = 0))
    (hdry : args.dry = false) (hyes : args.yes = false)
    (hconf : _ask_for_confirmation env.stdinLine = false) :
    handle env args = (.ok (), reportTrace env args ++
      [Event.confirmationPrompt, Event.readInput env.stdinLine] ++
      [Event.operationAborted]) := by
  simp only [handle, hpm, plansOf, reportTrace, baseTrace] at *
  rw [if_neg hne]
  simp [hdry, hyes, hconf]

lemma confirmationPrompt_not_mem_printPlansEvents (plans : List PartitionPlan) :
    Event.confirmationPrompt ∉ printPlansEvents plans := by
  intro h
  rcases mem_printPlansEvents h with ⟨p, _, he⟩ | he <;> simp_all

lemma confirmationPrompt_not_mem_initEvents (env : Env) :
    Event.confirmationPrompt ∉ initEvents env := by
  intro h
  exact absurd (mem_initEvents h) (by simp)

lemma nothingToBeDone_not_mem_printPlansEvents (plans : List PartitionPlan) :
    Event.nothingToBeDone ∉ printPlansEvents plans := by
  intro h
  rcases mem_printPlansEvents h with ⟨p, _, he⟩ | he <;> simp_all

lemma nothingToBeDone_not_mem_initEvents (env : Env) :
    Event.nothingToBeDone ∉ initEvents env := by
  intro h
  exact absurd (mem_initEvents h) (by simp)

/-- Exhaustive description of `handle`: every run takes exactly one of the
six control-flow paths of the source. -/
lemma handle_cases (env : Env) (args : HandleArgs) :
    (∃ e, handle env args = (.error e, initEvents env)) ∨
    handle env args = (.ok (), baseTrace env args ++ [Event.nothingToBeDone]) ∨
    (args.dry = true ∧ handle env args = (.ok (), reportTrace env args)) ∨
    (args.dry = false ∧ args.yes = true ∧
      handle env args = (.ok (), reportTrace env args ++
        [Event.applyCall false args.no_create args.no_delete args.usingConn,
         Event.operationsApplied])) ∨
    (args.dry = false ∧ args.yes = false ∧
      _ask_for_confirmation env.stdinLine = true ∧
      handle env args = (.ok (), reportTrace env args ++
        [Event.confirmationPrompt, Event.readInput env.stdinLine] ++
        [Event.applyCall false args.no_create args.no_delete args.usingConn,
         Event.operationsApplied])) ∨
    (args.dry = false ∧ args.yes = false ∧
      _ask_for_confirmation env.stdinLine = false ∧
      handle env args = (.ok (), reportTrace env args ++
        [Event.confirmationPrompt, Event.readInput env.stdinLine] ++
        [Event.operationAborted])) := by
  cases hpm : _partitioning_manager env.setting env.importString with
  | error e => exact Or.inl ⟨e, handle_eq_error env args e hpm⟩
  | ok pm =>
    by_cases h0 : createCount (plansOf env args) = 0 ∧
        deleteCount (plansOf env args) = 0
    · exact Or.inr (Or.inl (handle_eq_nothing env args pm hpm h0.1 h0.2))
    · cases hdry : args.dry with
      | true =>
        exact Or.inr (Or.inr (Or.inl ⟨rfl, handle_eq_dry env args pm hpm h0 hdry⟩))
      | false =>
        cases hyes : args.yes with
        | true =>
          exact Or.inr (Or.inr (Or.inr (Or.inl
            ⟨rfl, rfl, handle_eq_yes env args pm hpm h0 hdry hyes⟩)))
        | false =>
          cases hconf : _ask_for_confirmation env.stdinLine with
          | true =>
            exact Or.inr (Or.inr (Or.inr (Or.inr (Or.inl
              ⟨rfl, rfl, rfl,
               handle_eq_confirmed env args pm hpm h0 hdry hyes hconf⟩))))
          | false =>
            exact Or.inr (Or.inr (Or.inr (Or.inr (Or.inr
              ⟨rfl, rfl, rfl,
               handle_eq_aborted env args pm hpm h0 hdry hyes hconf⟩))))

/-- The helper `_ask_for_confirmation` answers yes exactly when the lowercased answer is
non-empty and starts with `y`. -/
lemma ask_for_confirmation_iff (s : String) :
    _ask_for_confirmation s = true ↔
      s.toLower ≠ "" ∧ s.toLower.front = 'y' := by
  unfold _ask_for_confirmation
  by_cases he : (s.toLower).isEmpty
  · rw [if_pos he]
    have h0 : s.toLower = "" := (String.isEmpty_iff _).mp he
    simp [h0]
  · rw [if_neg he]
    by_cases hy : (s.toLower).front = 'y' ∨ s.toLower = "yes"
    · rw [if_pos hy]
      constructor
      · intro _
        refine ⟨?_, ?_⟩
        · intro h0
          rw [h0] at he
          exact he rfl
        · rcases hy with h | h
          · exact h
          · rw [h]
            decide
      · intro _
        rfl
    · rw [if_neg hy]
      constructor
      · intro h
        cases h
      · rintro ⟨_, hfront⟩
        exact absurd (Or.inl hfront) hy

lemma reportDeleteCount_not_mem_printPlansEvents (n : Nat)
    (plans : List PartitionPlan) :
    Event.reportDeleteCount n ∉ printPlansEvents plans := by
  intro h
  rcases mem_printPlansEvents h with ⟨p, _, he⟩ | he <;> simp_all

lemma reportDeleteCount_not_mem_initEvents (n : Nat) (env : Env) :
    Event.reportDeleteCount n ∉ initEvents env := by
  intro h
  exact absurd (mem_initEvents h) (by simp)

lemma reportCreateCount_not_mem_printPlansEvents (n : Nat)
    (plans : List PartitionPlan) :
    Event.reportCreateCount n ∉ printPlansEvents plans := by
  intro h
  rcases mem_printPlansEvents h with ⟨p, _, he⟩ | he <;> simp_all

lemma reportCreateCount_not_mem_initEvents (n : Nat) (env : Env) :
    Event.reportCreateCount n ∉ initEvents env := by
  intro h
  exact absurd (mem_initEvents h) (by simp)

/-- A sample plan used by the concrete witnesses: two partitions would be
created and one deleted. -/
def samplePlan : PartitionPlan :=
  { created_partitions := ["tbl_2024_jan", "tbl_2024_feb"],
    deleted_partitions := ["tbl_2023_jan"] }

/-- A sample environment: the setting holds a (truthy, non-string) manager
object, the manager plans `samplePlan`, stdout is a terminal and stdin holds
an empty line. -/
def sampleEnv : Env :=
  { setting := some (PyVal.obj 1 true),
    importString := fun _ => PyVal.obj 2 true,
    applyPlans := fun _ _ _ _ => [samplePlan],
    stdoutIsatty := true,
    stdinLine := "" }

/-- The sample environment with the `PSQLEXTRA_PARTITIONING_MANAGER`
attribute absent from the settings object. -/
def envAbsent : Env := { sampleEnv with setting := Option.none }

/-- The sample environment with the setting set to Python `None`. -/
def envFalsy : Env := { sampleEnv with setting := some PyVal.none }

/-- The sample environment whose manager plans no operations at all. -/
def envNoOps : Env := { sampleEnv with applyPlans := fun _ _ _ _ => [] }

/-- Default command-line arguments: no flag given, `--using` left at its
`default` value. -/
def baseArgs : HandleArgs :=
  { dry := false, yes := false, usingConn := some "default",
    no_create := false, no_delete := false }

/-- The default arguments with `--dry`. -/
def dryArgs : HandleArgs := { baseArgs with dry := true }

/-- The default arguments with `--yes`. -/
def yesArgs : HandleArgs := { baseArgs with yes := true }

/-- Claim C1: when `handle` is invoked with `dry=True`, the partitioning
manager's `apply` is never called with `dry_run=False`; plans are computed
and reported but nothing is executed against the database. -/
theorem dry_never_calls_executing_apply (env : Env) (args : HandleArgs)
    (hdry : args.dry = true) (nc nd : Bool) (u : Option String) :
    Event.applyCall false nc nd u ∉ (handle env args).2 := by
  rcases handle_cases env args with ⟨e, hc⟩ | hc | ⟨_, hc⟩ |
    ⟨hd, _, _⟩ | ⟨hd, _, _, _⟩ | ⟨hd, _, _, _⟩
  · simp [hc, applyCall_not_mem_initEvents]
  · simp [hc, baseTrace, applyCall_not_mem_initEvents,
      applyCall_not_mem_printPlansEvents]
  · simp [hc, reportTrace, baseTrace, applyCall_not_mem_initEvents,
      applyCall_not_mem_printPlansEvents]
  · simp [hd] at hdry
  · simp [hd] at hdry
  · simp [hd] at hdry

/-- Witness for C1: with `--dry` at the sample environment, no executing
`apply` call appears in the trace. -/
theorem dry_never_calls_executing_apply_witness :
    dryArgs.dry = true ∧
    Event.applyCall false false false (some "default") ∉
      (handle sampleEnv dryArgs).2 :=
  ⟨rfl, dry_never_calls_executing_apply sampleEnv dryArgs rfl false false
    (some "default")⟩

/-- Counterexample to claim C2 as stated: when the
`PSQLEXTRA_PARTITIONING_MANAGER` attribute is absent from the settings
object, the two-argument `getattr` raises `AttributeError`, so `handle` does
not raise a `PostgresPartitioningError`. -/
theorem absent_setting_raises_attribute_error :
    envAbsent.setting = Option.none ∧
    (handle envAbsent baseArgs).1 = .error .attributeError ∧
    ¬ ∃ msg, (handle envAbsent baseArgs).1 =
        .error (.postgresPartitioningError msg) := by
  refine ⟨rfl, rfl, ?_⟩
  rintro ⟨msg, h⟩
  have h0 : (handle envAbsent baseArgs).1 = Except.error Err.attributeError := rfl
  rw [h0] at h
  simp at h

/-- Claim C2 (amended): when the setting holds a falsy value, `handle`
raises `PostgresPartitioningError` immediately; when the attribute is absent
entirely, it raises `AttributeError` instead; in either case the failure
happens before any plan computation and no `apply` call is ever made. -/
theorem unconfigured_setting_fails_before_apply (env : Env)
    (args : HandleArgs) :
    (env.setting = Option.none →
      handle env args = (.error .attributeError, initEvents env)) ∧
    (∀ v, env.setting = some v → v.truthy = false →
      handle env args =
        (.error (.postgresPartitioningError managerNotConfiguredMsg),
         initEvents env)) ∧
    (∀ e, (handle env args).1 = .error e →
      ∀ dr nc nd u, Event.applyCall dr nc nd u ∉ (handle env args).2) := by
  refine ⟨?_, ?_, ?_⟩
  · intro h
    exact handle_eq_error env args _ (by simp [_partitioning_manager, h])
  · intro v hv ht
    exact handle_eq_error env args _ (by simp [_partitioning_manager, hv, ht])
  · intro e he dr nc nd u
    rcases handle_cases env args with ⟨e2, hc⟩ | hc | ⟨_, hc⟩ |
      ⟨_, _, hc⟩ | ⟨_, _, _, hc⟩ | ⟨_, _, _, hc⟩
    · simp [hc, applyCall_not_mem_initEvents]
    all_goals rw [hc] at he
    all_goals simp at he

/-- Witness for the amended C2: with the setting set to Python `None`,
`handle` raises the configuration error and its trace holds no `apply`
call. -/
theorem unconfigured_setting_fails_before_apply_witness :
    handle envFalsy baseArgs =
      (.error (.postgresPartitioningError managerNotConfiguredMsg),
       initEvents envFalsy) :=
  (unconfigured_setting_fails_before_apply envFalsy baseArgs).2.1
    PyVal.none rfl rfl

/-- Claim C3: every run either makes no `apply` call at all (manager
resolution failed) or its trace starts with the plan-computing
`apply(dry_run=True, ...)` followed by the printing of every computed plan,
with no plan printed afterwards — so every plan is printed before any
executing `apply(dry_run=False, ...)` is issued. -/
theorem plans_printed_before_execution (env : Env) (args : HandleArgs) :
    (∀ dr nc nd u, Event.applyCall dr nc nd u ∉ (handle env args).2) ∨
    ∃ post, (handle env args).2 = baseTrace env args ++ post ∧
      ∀ p, Event.printPlan p ∉ post := by
  rcases handle_cases env args with ⟨e, hc⟩ | hc | ⟨_, hc⟩ |
    ⟨_, _, hc⟩ | ⟨_, _, _, hc⟩ | ⟨_, _, _, hc⟩
  · left
    intro dr nc nd u
    simp [hc, applyCall_not_mem_initEvents]
  · right
    exact ⟨[Event.nothingToBeDone], by simp [hc], by simp⟩
  · right
    exact ⟨[Event.reportDeleteCount (deleteCount (plansOf env args)),
            Event.reportCreateCount (createCount (plansOf env args))],
      by simp [hc, reportTrace], by simp⟩
  · right
    exact ⟨[Event.reportDeleteCount (deleteCount (plansOf env args)),
            Event.reportCreateCount (createCount (plansOf env args)),
            Event.applyCall false args.no_create args.no_delete args.usingConn,
            Event.operationsApplied],
      by simp [hc, reportTrace], by simp⟩
  · right
    exact ⟨[Event.reportDeleteCount (deleteCount (plansOf env args)),
            Event.reportCreateCount (createCount (plansOf env args)),
            Event.confirmationPrompt, Event.readInput env.stdinLine,
            Event.applyCall false args.no_create args.no_delete args.usingConn,
            Event.operationsApplied],
      by simp [hc, reportTrace], by simp⟩
  · right
    exact ⟨[Event.reportDeleteCount (deleteCount (plansOf env args)),
            Event.reportCreateCount (createCount (plansOf env args)),
            Event.confirmationPrompt, Event.readInput env.stdinLine,
            Event.operationAborted],
      by simp [hc, reportTrace], by simp⟩

/-- Claim C4: every `apply` call in a run's trace — the plan-computing one
and the executing one alike — receives exactly the command's `no_create`,
`no_delete` and `using` argument values. -/
theorem apply_receives_command_arguments (env : Env) (args : HandleArgs)
    (dr nc nd : Bool) (u : Option String)
    (hmem : Event.applyCall dr nc nd u ∈ (handle env args).2) :
    nc = args.no_create ∧ nd = args.no_delete ∧ u = args.usingConn := by
  rcases handle_cases env args with ⟨e, hc⟩ | hc | ⟨_, hc⟩ |
    ⟨_, _, hc⟩ | ⟨_, _, _, hc⟩ | ⟨_, _, _, hc⟩ <;>
    simp [hc, baseTrace, reportTrace, applyCall_not_mem_initEvents,
      applyCall_not_mem_printPlansEvents] at hmem <;>
    tauto

/-- Witness for C4: the dry-run `apply` call of a concrete run carries the
default argument values. -/
theorem apply_receives_command_arguments_witness :
    Event.applyCall true false false (some "default") ∈
      (handle sampleEnv yesArgs).2 ∧
    (false = yesArgs.no_create ∧ false = yesArgs.no_delete ∧
     some "default" = yesArgs.usingConn) :=
  ⟨by decide, apply_receives_command_arguments sampleEnv yesArgs true
    false false (some "default") (by decide)⟩

/-- Claim C5: the delete count and create count the command reports equal
the sum over all returned plans of the lengths of `deleted_partitions` and
`created_partitions` respectively. -/
theorem reported_counts_are_plan_sums (env : Env) (args : HandleArgs)
    (n m : Nat)
    (hd : Event.reportDeleteCount n ∈ (handle env args).2)
    (hcr : Event.reportCreateCount m ∈ (handle env args).2) :
    n = deleteCount (plansOf env args) ∧
    m = createCount (plansOf env args) := by
  rcases handle_cases env args with ⟨e, hc⟩ | hc | ⟨_, hc⟩ |
    ⟨_, _, hc⟩ | ⟨_, _, _, hc⟩ | ⟨_, _, _, hc⟩ <;>
    simp [hc, baseTrace, reportTrace, reportDeleteCount_not_mem_initEvents,
      reportDeleteCount_not_mem_printPlansEvents,
      reportCreateCount_not_mem_initEvents,
      reportCreateCount_not_mem_printPlansEvents] at hd hcr <;>
    tauto

/-- Witness for C5: with the sample plan (two creates, one delete), the
reported counts are 1 deletion and 2 creations. -/
theorem reported_counts_are_plan_sums_witness :
    Event.reportDeleteCount 1 ∈ (handle sampleEnv yesArgs).2 ∧
    Event.reportCreateCount 2 ∈ (handle sampleEnv yesArgs).2 ∧
    (1 = deleteCount (plansOf sampleEnv yesArgs) ∧
     2 = createCount (plansOf sampleEnv yesArgs)) :=
  ⟨by decide, by decide,
   reported_counts_are_plan_sums sampleEnv yesArgs 1 2 (by decide)
     (by decide)⟩

/-- Claim C6: with `yes=True` and `dry=False` and at least one operation
planned, the executing `apply(dry_run=False, ...)` happens and nothing is
read from stdin (nor is the confirmation prompt shown): the command is fully
usable non-interactively. -/
theorem yes_runs_noninteractively (env : Env) (args : HandleArgs) (pm : PyVal)
    (hpm : _partitioning_manager env.setting env.importString = .ok pm)
    (hyes : args.yes = true) (hdry : args.dry = false)
    (hne : ¬(createCount (plansOf env args) = 0 ∧
             deleteCount (plansOf env args) = 0)) :
    Event.applyCall false args.no_create args.no_delete args.usingConn ∈
      (handle env args).2 ∧
    (∀ s, Event.readInput s ∉ (handle env args).2) ∧
    Event.confirmationPrompt ∉ (handle env args).2 := by
  have hc := handle_eq_yes env args pm hpm hne hdry hyes
  refine ⟨by simp [hc], ?_, ?_⟩
  · intro s
    simp [hc, reportTrace, baseTrace, readInput_not_mem_initEvents,
      readInput_not_mem_printPlansEvents]
  · simp [hc, reportTrace, baseTrace, confirmationPrompt_not_mem_initEvents,
      confirmationPrompt_not_mem_printPlansEvents]

/-- Witness for C6: with `--yes` at the sample environment, the executing
`apply` happens and stdin is never read. -/
theorem yes_runs_noninteractively_witness :
    Event.applyCall false false false (some "default") ∈
      (handle sampleEnv yesArgs).2 ∧
    (∀ s, Event.readInput s ∉ (handle sampleEnv yesArgs).2) ∧
    Event.confirmationPrompt ∉ (handle sampleEnv yesArgs).2 :=
  yes_runs_noninteractively sampleEnv yesArgs (PyVal.obj 1 true) rfl rfl rfl
    (by decide)

/-- Claim C7: with `dry=False`, `yes=False` and at least one operation
planned, the executing `apply(dry_run=False, ...)` happens if and only if
the lowercased answer read from stdin is non-empty and begins with `y`;
otherwise the operation-aborted message is printed and no executing `apply`
occurs (in particular an empty answer means no). -/
theorem confirmation_gates_execution (env : Env) (args : HandleArgs)
    (pm : PyVal)
    (hpm : _partitioning_manager env.setting env.importString = .ok pm)
    (hdry : args.dry = false) (hyes : args.yes = false)
    (hne : ¬(createCount (plansOf env args) = 0 ∧
             deleteCount (plansOf env args) = 0)) :
    (Event.applyCall false args.no_create args.no_delete args.usingConn ∈
        (handle env args).2 ↔
      env.stdinLine.toLower ≠ "" ∧ env.stdinLine.toLower.front = 'y') ∧
    (¬(env.stdinLine.toLower ≠ "" ∧ env.stdinLine.toLower.front = 'y') →
      Event.operationAborted ∈ (handle env args).2 ∧
      ∀ nc nd u, Event.applyCall false nc nd u ∉ (handle env args).2) := by
  cases hconf : _ask_for_confirmation env.stdinLine with
  | true =>
    have hc := handle_eq_confirmed env args pm hpm hne hdry hyes hconf
    have hans := (ask_for_confirmation_iff env.stdinLine).mp hconf
    refine ⟨⟨fun _ => hans, fun _ => by simp [hc]⟩, fun hno => absurd hans hno⟩
  | false =>
    have hc := handle_eq_aborted env args pm hpm hne hdry hyes hconf
    have hans : ¬(env.stdinLine.toLower ≠ "" ∧
        env.stdinLine.toLower.front = 'y') := by
      intro h
      have h2 := (ask_for_confirmation_iff env.stdinLine).mpr h
      rw [hconf] at h2
      cases h2
    refine ⟨⟨fun hmem => ?_, fun h => absurd h hans⟩, fun _ => ⟨by simp [hc], ?_⟩⟩
    · exfalso
      simp [hc, reportTrace, baseTrace, applyCall_not_mem_initEvents,
        applyCall_not_mem_printPlansEvents] at hmem
    · intro nc nd u
      simp [hc, reportTrace, baseTrace, applyCall_not_mem_initEvents,
        applyCall_not_mem_printPlansEvents]

/-- Witness for C7: at the sample environment stdin holds an empty line, so
the run aborts and no executing `apply` occurs. -/
theorem confirmation_gates_execution_witness :
    (Event.applyCall false false false (some "default") ∈
        (handle sampleEnv baseArgs).2 ↔
      ("" : String).toLower ≠ "" ∧ ("" : String).toLower.front = 'y') ∧
    (¬(("" : String).toLower ≠ "" ∧ ("" : String).toLower.front = 'y') →
      Event.operationAborted ∈ (handle sampleEnv baseArgs).2 ∧
      ∀ nc nd u, Event.applyCall false nc nd u ∉
        (handle sampleEnv baseArgs).2) :=
  confirmation_gates_execution sampleEnv baseArgs (PyVal.obj 1 true) rfl rfl
    rfl (by decide)

/-- Claim C8: when the computed plans contain no partition to create and
none to delete, `handle` prints the nothing-to-be-done message and returns
normally, without prompting, without reading stdin, and without any
executing `apply`, regardless of the `dry` and `yes` flags. -/
theorem nothing_to_do_short_circuits (env : Env) (args : HandleArgs)
    (pm : PyVal)
    (hpm : _partitioning_manager env.setting env.importString = .ok pm)
    (h0 : createCount (plansOf env args) = 0)
    (h0d : deleteCount (plansOf env args) = 0) :
    Event.nothingToBeDone ∈ (handle env args).2 ∧
    (handle env args).1 = .ok () ∧
    Event.confirmationPrompt ∉ (handle env args).2 ∧
    (∀ s, Event.readInput s ∉ (handle env args).2) ∧
    (∀ nc nd u, Event.applyCall false nc nd u ∉ (handle env args).2) := by
  have hc := handle_eq_nothing env args pm hpm h0 h0d
  refine ⟨by simp [hc], by simp [hc], ?_, ?_, ?_⟩
  · simp [hc, baseTrace, confirmationPrompt_not_mem_initEvents,
      confirmationPrompt_not_mem_printPlansEvents]
  · intro s
    simp [hc, baseTrace, readInput_not_mem_initEvents,
      readInput_not_mem_printPlansEvents]
  · intro nc nd u
    simp [hc, baseTrace, applyCall_not_mem_initEvents,
      applyCall_not_mem_printPlansEvents]

/-- Witness for C8: with a manager that plans nothing, the run reports
nothing to be done and calls no executing `apply`. -/
theorem nothing_to_do_short_circuits_witness :
    Event.nothingToBeDone ∈ (handle envNoOps baseArgs).2 ∧
    (handle envNoOps baseArgs).1 = .ok () ∧
    Event.confirmationPrompt ∉ (handle envNoOps baseArgs).2 ∧
    (∀ s, Event.readInput s ∉ (handle envNoOps baseArgs).2) ∧
    (∀ nc nd u, Event.applyCall false nc nd u ∉
      (handle envNoOps baseArgs).2) :=
  nothing_to_do_short_circuits envNoOps baseArgs (PyVal.obj 1 true) rfl rfl
    rfl

/-- Claim C9: `_partitioning_manager` returns a configured non-string truthy
object directly, and resolves a configured non-empty string through
`import_string`. -/
theorem partitioning_manager_resolves_setting (setting : Option PyVal)
    (importString : String → PyVal) :
    (∀ i t, setting = some (PyVal.obj i t) → t = true →
      _partitioning_manager setting importString = .ok (PyVal.obj i t)) ∧
    (∀ s, setting = some (PyVal.str s) → s ≠ "" →
      _partitioning_manager setting importString = .ok (importString s)) := by
  constructor
  · rintro i t rfl rfl
    simp [_partitioning_manager, PyVal.truthy]
  · rintro s rfl hs
    have he : s.isEmpty = false := by
      cases h : s.isEmpty
      · rfl
      · exact absurd ((String.isEmpty_iff s).mp h) hs
    simp [_partitioning_manager, PyVal.truthy, he]

/-- Witness for C9: a truthy object is returned as is, and a non-empty
string is resolved through `import_string`. -/
theorem partitioning_manager_resolves_setting_witness :
    _partitioning_manager (some (PyVal.obj 7 true))
        (fun s => PyVal.obj s.length true) = .ok (PyVal.obj 7 true) ∧
    _partitioning_manager (some (PyVal.str "app.manager"))
        (fun s => PyVal.obj s.length true) = .ok (PyVal.obj 11 true) :=
  ⟨(partitioning_manager_resolves_setting (some (PyVal.obj 7 true))
      (fun s => PyVal.obj s.length true)).1 7 true rfl rfl,
   (partitioning_manager_resolves_setting (some (PyVal.str "app.manager"))
      (fun s => PyVal.obj s.length true)).2 "app.manager" rfl (by decide)⟩

end PgPartition
